import Mathlib

/-!
Shallow embedding of the rx-thread-pool core (ThreadPool.ts, worker.js,
ThreadQueue.ts, AbstractThreadTask.ts) and verification of its
specification claims.

Finite RxJS observables are embedded by their subscription outcome: the
ordered list of values delivered by `next`, followed by either `complete`
or `error(msg)`.
-/

namespace RxThreadPool

/-- Subscription outcome of a finite cold observable: the values emitted
in order, then either normal completion (`ok`) or a stream error (`err`). -/
inductive ObsOutcome (α : Type) where
  | ok (values : List α)
  | err (values : List α) (msg : String)
deriving Repr, DecidableEq

/-- The thread function type from AbstractThreadTask.ts:
`(input: I, threadId: number) => R`, with both observables embedded by
their outcomes. -/
def ThreadFunc (I V : Type) := ObsOutcome I → Nat → ObsOutcome V

/-- AbstractThreadTask.ts: a computation paired with its input observable. -/
structure AbstractThreadTask (I V : Type) where
  threadFunc : ThreadFunc I V
  input : ObsOutcome I

/-- `getInput()` from AbstractThreadTask.ts. -/
def AbstractThreadTask.getInput (t : AbstractThreadTask I V) : ObsOutcome I :=
  t.input

/-- `getThreadFunc()` from AbstractThreadTask.ts. -/
def AbstractThreadTask.getThreadFunc (t : AbstractThreadTask I V) : ThreadFunc I V :=
  t.threadFunc

/-- `execute(threadId)` from AbstractThreadTask.ts. -/
def AbstractThreadTask.execute (t : AbstractThreadTask I V) (threadId : Nat) :
    ObsOutcome V :=
  t.threadFunc t.input threadId

/-- ThreadQueue.ts: a named FIFO list of tasks (`queue: AbstractThreadTask[]`). -/
structure ThreadQueue (I V : Type) where
  name : String
  queue : List (AbstractThreadTask I V)

/-- `enqueue(task)`: `this.queue.push(task)`. -/
def ThreadQueue.enqueue (q : ThreadQueue I V) (t : AbstractThreadTask I V) :
    ThreadQueue I V :=
  { q with queue := q.queue ++ [t] }

/-- `dequeue()`: `this.queue.shift()` — the removed head (if any) and the
remaining queue. -/
def ThreadQueue.dequeue (q : ThreadQueue I V) :
    Option (AbstractThreadTask I V) × ThreadQueue I V :=
  (q.queue.head?, { q with queue := q.queue.tail })

/-- `peek()`: `this.queue[0]`. -/
def ThreadQueue.peek (q : ThreadQueue I V) : Option (AbstractThreadTask I V) :=
  q.queue.head?

/-- `size()`: `this.queue.length`. -/
def ThreadQueue.size (q : ThreadQueue I V) : Nat :=
  q.queue.length

/-- `isEmpty()`: `this.queue.length === 0`. -/
def ThreadQueue.isEmpty (q : ThreadQueue I V) : Bool :=
  q.queue.length == 0

/-- `getAllTasks()`: `[...this.queue]`, a snapshot copy of the task list. -/
def ThreadQueue.getAllTasks (q : ThreadQueue I V) :
    List (AbstractThreadTask I V) :=
  q.queue

/-- `clear()`: `this.queue = []`. -/
def ThreadQueue.clear (q : ThreadQueue I V) : ThreadQueue I V :=
  { q with queue := [] }

/-- The `ThreadResult` interface from ThreadPool.ts:
`{ threadId: number; value?: V; error?: string; completed: boolean }`. -/
structure ThreadResult (V : Type) where
  threadId : Nat
  value : Option V
  error : Option String
  completed : Bool
deriving Repr, DecidableEq

/-- Messages posted by worker.js through `parentPort.postMessage`:
`{type:'next', value, threadId}`, `{type:'error', error, stack, threadId}`,
`{type:'complete', values, threadId}`. -/
inductive WorkerMsg (V : Type) where
  | next (value : V) (threadId : Nat)
  | error (error : String) (stack : String) (threadId : Nat)
  | complete (values : List V) (threadId : Nat)
deriving Repr, DecidableEq

/-- worker.js main body: the input observable replays `inputData` and
completes; the thread function is invoked with it and the threadId; each
emitted value is posted as a `next` message (and accumulated in `values`);
normal completion posts `complete` carrying the accumulated `values`;
an error posts a single `error` message carrying the description and stack. -/
def workerRun (threadFunc : ThreadFunc I V) (inputData : List I)
    (threadId : Nat) : List (WorkerMsg V) :=
  match threadFunc (ObsOutcome.ok inputData) threadId with
  | ObsOutcome.ok vs =>
      vs.map (fun v => WorkerMsg.next v threadId)
        ++ [WorkerMsg.complete vs threadId]
  | ObsOutcome.err vs e =>
      vs.map (fun v => WorkerMsg.next v threadId)
        ++ [WorkerMsg.error e "" threadId]

/-- The `worker.on('message')` handler of ThreadPool.ts, folded over the
worker's message sequence: `next` messages become non-completed results;
the first `error` or `complete` message becomes a completed result, after
which the worker is terminated and the subscriber completed (no further
messages are translated). -/
def processMessages : List (WorkerMsg V) → List (ThreadResult V)
  | [] => []
  | WorkerMsg.next v tid :: rest =>
      ⟨tid, some v, none, false⟩ :: processMessages rest
  | WorkerMsg.error e _ tid :: _ => [⟨tid, none, some e, true⟩]
  | WorkerMsg.complete _ tid :: _ => [⟨tid, none, none, true⟩]

/-- `createWorkerObservable(task, threadId)` of ThreadPool.ts, as the
outcome its subscriber observes: the task's input is drained first; if it
completes, the worker is spawned with the collected `inputData` and the
worker's messages are translated by the message handler; if the input
errors, `subscriber.error(error)` is called — a fatal stream error with
no prior items. -/
def createWorkerObservable (task : AbstractThreadTask I V) (threadId : Nat) :
    ObsOutcome (ThreadResult V) :=
  match task.input with
  | ObsOutcome.ok inputData =>
      ObsOutcome.ok (processMessages (workerRun task.threadFunc inputData threadId))
  | ObsOutcome.err _ e => ObsOutcome.err [] e

/-- `merge(...)` of RxJS specialised to synchronous finite sources: each
inner observable runs to its terminal state in subscription order; an
inner stream error becomes the merged stream's error and aborts the rest. -/
def mergeAll : List (ObsOutcome α) → ObsOutcome α
  | [] => ObsOutcome.ok []
  | ObsOutcome.ok vs :: rest =>
      match mergeAll rest with
      | ObsOutcome.ok ws => ObsOutcome.ok (vs ++ ws)
      | ObsOutcome.err ws e => ObsOutcome.err (vs ++ ws) e
  | ObsOutcome.err vs e :: _ => ObsOutcome.err vs e

/-- ThreadPool.ts state: `maxThreads` (os.availableParallelism, an
environment value taken as a parameter), the queue array, the
active-worker map (embedded as the list of live threadIds) and the
monotone `nextThreadId` counter. -/
structure ThreadPool (I V : Type) where
  maxThreads : Nat
  threadQueueArray : List (ThreadQueue I V)
  activeWorkers : List Nat
  nextThreadId : Nat

/-- The ThreadPool constructor: throws when the queue array is missing
(`!threadQueueArray`) or empty; otherwise initialises the pool with an
empty active-worker map and `nextThreadId = 0`. -/
def ThreadPool.create (maxThreads : Nat)
    (threadQueueArray : Option (List (ThreadQueue I V))) :
    Except String (ThreadPool I V) :=
  match threadQueueArray with
  | none => Except.error "ThreadPool requires at least one ThreadQueue"
  | some qs =>
      if qs.length = 0 then
        Except.error "ThreadPool requires at least one ThreadQueue"
      else
        Except.ok ⟨maxThreads, qs, [], 0⟩

/-- The flattening loop of `start()`:
`for (const queue of this.threadQueueArray) allTasks.push(...queue.getAllTasks())`. -/
def ThreadPool.allTasks (p : ThreadPool I V) : List (AbstractThreadTask I V) :=
  p.threadQueueArray.foldl (fun acc q => acc ++ q.getAllTasks) []

/-- The id-assignment loop of `start()`: each task in order receives
`threadId = nextThreadId++`. -/
def assignIds (n : Nat) : List α → List (Nat × α)
  | [] => []
  | t :: ts => (n, t) :: assignIds (n + 1) ts

/-- `start()` restricted to its dispatch bookkeeping: the (threadId, task)
pairs produced by the assignment loop, together with the pool state after
the call (only `nextThreadId` advances; with no tasks, nothing happens). -/
def ThreadPool.startAssignments (p : ThreadPool I V) :
    List (Nat × AbstractThreadTask I V) × ThreadPool I V :=
  let tasks := p.allTasks
  if tasks.length = 0 then ([], p)
  else (assignIds p.nextThreadId tasks,
        { p with nextThreadId := p.nextThreadId + tasks.length })

/-- `start()`: flattens the queues; returns `null` when there are no
tasks; otherwise builds one worker observable per task with sequential
threadIds and returns their merge (as observed by a subscriber), together
with the pool state after the call. -/
def ThreadPool.start (p : ThreadPool I V) :
    Option (ObsOutcome (ThreadResult V)) × ThreadPool I V :=
  let tasks := p.allTasks
  if tasks.length = 0 then (none, p)
  else
    (some (mergeAll ((assignIds p.nextThreadId tasks).map
        (fun a => createWorkerObservable a.2 a.1))),
     { p with nextThreadId := p.nextThreadId + tasks.length })

/-- `getMaxThreads()`. -/
def ThreadPool.getMaxThreads (p : ThreadPool I V) : Nat :=
  p.maxThreads

/-- `getActiveWorkerCount()`: `this.activeWorkers.size`. -/
def ThreadPool.getActiveWorkerCount (p : ThreadPool I V) : Nat :=
  p.activeWorkers.length

/-- `terminateAll()`: terminates every live worker and clears the
active-worker map. -/
def ThreadPool.terminateAll (p : ThreadPool I V) : ThreadPool I V :=
  { p with activeWorkers := [] }

/-!
Event-level model of the pool's runtime handlers (ThreadPool.ts lines
106-170 and 193-198).  The handlers installed per worker react to Node
events; the model replays an explicit event list through them.
-/

/-- Events the pool's handlers react to: the worker being spawned and
registered (`activeWorkers.set`), a `message` from worker.js, a worker
`error` event, a worker `exit` event with its code, and a call to
`terminateAll()`. -/
inductive PoolEvent (V : Type) where
  | spawn (threadId : Nat)
  | message (threadId : Nat) (msg : WorkerMsg V)
  | workerError (threadId : Nat) (errMessage : String)
  | workerExit (threadId : Nat) (code : Nat)
  | terminateAll
deriving Repr

/-- Insert a threadId as a key of the active-worker map (`Map.set`). -/
def insertId (tid : Nat) (ids : List Nat) : List Nat :=
  if tid ∈ ids then ids else tid :: ids

/-- Remove a threadId from the active-worker map (`Map.delete`). -/
def removeId (tid : Nat) (ids : List Nat) : List Nat :=
  ids.filter (fun i => i ≠ tid)

/-- Runtime state of a started pool: the pool fields plus the set of
per-worker subscribers that have already been completed (an RxJS
subscriber silently drops `next` calls after completion). -/
structure PoolRun (I V : Type) where
  pool : ThreadPool I V
  closedSubscribers : List Nat

/-- Deliver a result through worker `tid`'s subscriber: dropped when that
subscriber has already completed. -/
def PoolRun.deliver (s : PoolRun I V) (tid : Nat) (r : ThreadResult V) :
    List (ThreadResult V) :=
  if tid ∈ s.closedSubscribers then [] else [r]

/-- One step of the pool's event handlers, returning the next state and
the results delivered to subscribers.  Transcribed from ThreadPool.ts:
the `message` handler translates the message (using the message's own
`threadId` field for the result), and on `error`/`complete` terminates
the worker, deletes it from the map and completes the subscriber; the
worker `error` handler emits an error result, deletes and completes; the
`exit` handler synthesizes an error result only when the exit code is
non-zero and the threadId is still in the active map, then deletes and
completes; `terminateAll` terminates every worker and clears the map,
touching no subscriber. -/
def PoolRun.step (s : PoolRun I V) : PoolEvent V → PoolRun I V × List (ThreadResult V)
  | PoolEvent.spawn tid =>
      ({ s with pool := { s.pool with activeWorkers := insertId tid s.pool.activeWorkers } }, [])
  | PoolEvent.message tid msg =>
      match msg with
      | WorkerMsg.next v mtid =>
          (s, s.deliver tid ⟨mtid, some v, none, false⟩)
      | WorkerMsg.error e _ mtid =>
          ({ pool := { s.pool with activeWorkers := removeId tid s.pool.activeWorkers },
             closedSubscribers := insertId tid s.closedSubscribers },
           s.deliver tid ⟨mtid, none, some e, true⟩)
      | WorkerMsg.complete _ mtid =>
          ({ pool := { s.pool with activeWorkers := removeId tid s.pool.activeWorkers },
             closedSubscribers := insertId tid s.closedSubscribers },
           s.deliver tid ⟨mtid, none, none, true⟩)
  | PoolEvent.workerError tid e =>
      ({ pool := { s.pool with activeWorkers := removeId tid s.pool.activeWorkers },
         closedSubscribers := insertId tid s.closedSubscribers },
       s.deliver tid ⟨tid, none, some e, true⟩)
  | PoolEvent.workerExit tid code =>
      ({ pool := { s.pool with activeWorkers := removeId tid s.pool.activeWorkers },
         closedSubscribers := insertId tid s.closedSubscribers },
       if code ≠ 0 ∧ tid ∈ s.pool.activeWorkers then
         s.deliver tid
           ⟨tid, none, some ("Worker stopped with exit code " ++ toString code), true⟩
       else [])
  | PoolEvent.terminateAll =>
      ({ s with pool := { s.pool with activeWorkers := [] } }, [])

/-!
Message schema model.  worker.js posts plain objects; their field lists
are made explicit so the wire schema can be compared with the one the
specification claims.
-/

/-- A JSON-ish field value as it appears in worker.js's posted objects. -/
inductive JVal (V : Type) where
  | jstr (s : String)
  | jnum (n : Nat)
  | jval (v : V)
  | jarr (vs : List V)
deriving Repr, DecidableEq

/-- The exact field list of each object worker.js passes to
`parentPort.postMessage`:
`{ type: 'next', value, threadId }`,
`{ type: 'error', error, stack, threadId }`,
`{ type: 'complete', values, threadId }`. -/
def WorkerMsg.toFields : WorkerMsg V → List (String × JVal V)
  | WorkerMsg.next v tid =>
      [("type", JVal.jstr "next"), ("value", JVal.jval v), ("threadId", JVal.jnum tid)]
  | WorkerMsg.error e st tid =>
      [("type", JVal.jstr "error"), ("error", JVal.jstr e),
       ("stack", JVal.jstr st), ("threadId", JVal.jnum tid)]
  | WorkerMsg.complete vs tid =>
      [("type", JVal.jstr "complete"), ("values", JVal.jarr vs),
       ("threadId", JVal.jnum tid)]

/-- Modelled from the spec's words (refinement target, not from the
source): the claimed wire schema
`{ type: "next" | "error" | "complete", workerId: int, value?: any, error?: string }` —
a message matches it when its worker-identifier field is named `workerId`
and every field is one of `type`, `workerId`, `value`, `error`. -/
def matchesSpecSchema (fields : List (String × JVal V)) : Bool :=
  fields.any (fun kv => kv.1 == "workerId")
    && fields.all (fun kv => ["type", "workerId", "value", "error"].contains kv.1)

/-- The values carried by the `next` messages of a message list, in order. -/
def emittedValues : List (WorkerMsg V) → List V
  | [] => []
  | WorkerMsg.next v _ :: rest => v :: emittedValues rest
  | _ :: rest => emittedValues rest

/-- Number of terminal results (completed = true) carried by a result
list for the given threadId. -/
def terminalCount (rs : List (ThreadResult V)) (tid : Nat) : Nat :=
  rs.countP (fun r => r.threadId == tid && r.completed)

/-- The result list a subscriber observes from one worker whose input
completed with `inputData`. -/
def workerResults (threadFunc : ThreadFunc I V) (inputData : List I)
    (threadId : Nat) : List (ThreadResult V) :=
  processMessages (workerRun threadFunc inputData threadId)

/-! ### Supporting lemmas -/

theorem assignIds_map_fst (l : List α) :
    ∀ n, (assignIds n l).map Prod.fst = List.range' n l.length := by
  induction l with
  | nil => intro n; simp [assignIds]
  | cons t ts ih =>
      intro n
      simp [assignIds, List.range', ih]

theorem assignIds_map_snd (l : List α) :
    ∀ n, (assignIds n l).map Prod.snd = l := by
  induction l with
  | nil => intro n; simp [assignIds]
  | cons t ts ih => intro n; simp [assignIds, ih]

theorem assignIds_length (l : List α) (n : Nat) :
    (assignIds n l).length = l.length := by
  have := congrArg List.length (assignIds_map_snd l n)
  simpa using this

theorem terminalCount_append (rs rs' : List (ThreadResult V)) (tid : Nat) :
    terminalCount (rs ++ rs') tid = terminalCount rs tid + terminalCount rs' tid := by
  simp [terminalCount, List.countP_append]

theorem processMessages_next_map (vs : List V) (tid : Nat)
    (rest : List (WorkerMsg V)) :
    processMessages (vs.map (fun v => WorkerMsg.next v tid) ++ rest)
      = vs.map (fun v => (⟨tid, some v, none, false⟩ : ThreadResult V))
          ++ processMessages rest := by
  induction vs with
  | nil => simp
  | cons v vs ih => simp [processMessages, ih]

theorem workerResults_eq (f : ThreadFunc I V) (inp : List I) (tid : Nat) :
    workerResults f inp tid
      = match f (ObsOutcome.ok inp) tid with
        | ObsOutcome.ok vs =>
            vs.map (fun v => (⟨tid, some v, none, false⟩ : ThreadResult V))
              ++ [⟨tid, none, none, true⟩]
        | ObsOutcome.err vs e =>
            vs.map (fun v => (⟨tid, some v, none, false⟩ : ThreadResult V))
              ++ [⟨tid, none, some e, true⟩] := by
  unfold workerResults workerRun
  cases f (ObsOutcome.ok inp) tid with
  | ok vs => simp [processMessages_next_map, processMessages]
  | err vs e => simp [processMessages_next_map, processMessages]

theorem terminalCount_nonterm (vs : List V) (tid tid' : Nat) :
    terminalCount (vs.map (fun v => (⟨tid, some v, none, false⟩ : ThreadResult V))) tid'
      = 0 := by
  induction vs with
  | nil => simp [terminalCount]
  | cons v vs ih =>
      simp [terminalCount, List.countP_cons] at ih ⊢
      try exact ih

theorem workerResults_terminalCount (f : ThreadFunc I V) (inp : List I)
    (tid tid' : Nat) :
    terminalCount (workerResults f inp tid) tid'
      = if tid' = tid then 1 else 0 := by
  rw [workerResults_eq]
  cases f (ObsOutcome.ok inp) tid with
  | ok vs =>
      simp only [terminalCount_append, terminalCount_nonterm]
      by_cases h : tid' = tid
      · simp [terminalCount, List.countP_cons, h]
      · simp [terminalCount, List.countP_cons, h, Ne.symm h]
  | err vs e =>
      simp only [terminalCount_append, terminalCount_nonterm]
      by_cases h : tid' = tid
      · simp [terminalCount, List.countP_cons, h]
      · simp [terminalCount, List.countP_cons, h, Ne.symm h]

/-- Fan-in of the per-task worker observables when every task's input
completes: the merged stream completes, and each assigned threadId
contributes exactly one terminal result. -/
theorem mergeAll_assignIds_terminal (tasks : List (AbstractThreadTask I V)) :
    ∀ k, (∀ t ∈ tasks, ∃ vs, t.input = ObsOutcome.ok vs) →
    ∃ items,
      mergeAll ((assignIds k tasks).map (fun a => createWorkerObservable a.2 a.1))
        = ObsOutcome.ok items
      ∧ ∀ tid, terminalCount items tid
          = if k ≤ tid ∧ tid < k + tasks.length then 1 else 0 := by
  induction tasks with
  | nil =>
      intro k _
      refine ⟨[], by simp [assignIds, mergeAll], ?_⟩
      intro tid
      simp only [List.length_nil, Nat.add_zero]
      have h : ¬ (k ≤ tid ∧ tid < k) := by omega
      simp [terminalCount, h]
  | cons t ts ih =>
      intro k hok
      obtain ⟨vs, hvs⟩ := hok t (List.mem_cons_self t ts)
      obtain ⟨items', hmerge', hcount'⟩ :=
        ih (k + 1) (fun u hu => hok u (List.mem_cons_of_mem t hu))
      have hobs : createWorkerObservable t k
          = ObsOutcome.ok (workerResults t.threadFunc vs k) := by
        simp [createWorkerObservable, hvs, workerResults]
      refine ⟨workerResults t.threadFunc vs k ++ items', ?_, ?_⟩
      · simp [assignIds, hobs, mergeAll, hmerge']
      · intro tid
        rw [terminalCount_append, workerResults_terminalCount, hcount' tid]
        by_cases h : tid = k
        · subst h
          have h1 : ¬ (tid + 1 ≤ tid ∧ tid < tid + 1 + ts.length) := by omega
          have h2 : tid ≤ tid ∧ tid < tid + (ts.length + 1) := by omega
          simp [h1, h2]
        · by_cases h3 : k + 1 ≤ tid ∧ tid < k + 1 + ts.length
          · have h4 : k ≤ tid ∧ tid < k + (ts.length + 1) := by omega
            simp [h, h3, h4]
          · have h4 : ¬ (k ≤ tid ∧ tid < k + (ts.length + 1)) := by omega
            simp [h, h3, h4]

theorem emittedValues_next_map (vs : List V) (tid : Nat)
    (rest : List (WorkerMsg V)) :
    emittedValues (vs.map (fun v => WorkerMsg.next v tid) ++ rest)
      = vs ++ emittedValues rest := by
  induction vs with
  | nil => simp
  | cons v vs ih => simp [emittedValues, ih]

/-! ### Concrete instances used by witnesses and counterexamples -/

/-- A pool over one queue that holds no tasks. -/
def emptyQueuePool : ThreadPool Nat Nat :=
  ⟨4, [⟨"q0", []⟩], [], 0⟩

/-- A task whose computation echoes its input observable. -/
def c1Task : AbstractThreadTask Nat Nat :=
  ⟨fun i _ => i, ObsOutcome.ok [5]⟩

/-- A pool holding just `c1Task`. -/
def c1Pool : ThreadPool Nat Nat :=
  ⟨4, [⟨"q", [c1Task]⟩], [], 0⟩

/-! ### Claim C7 -/

/-- C7: `start()` on a pool whose queues together contain zero tasks
returns the `null` sentinel and leaves the pool untouched — no worker
observable is created and no threadId is consumed. -/
theorem c7_empty_start (p : ThreadPool I V) (h : p.allTasks = []) :
    p.start = (none, p) := by
  simp [ThreadPool.start, h]

theorem c7_witness :
    emptyQueuePool.allTasks = [] ∧ emptyQueuePool.start = (none, emptyQueuePool) :=
  ⟨rfl, c7_empty_start emptyQueuePool rfl⟩

/-! ### Claim C8 -/

/-- C8: the ThreadPool constructor fails with the setup error exactly when
the queue array is missing or empty, and succeeds on any non-empty queue
array, producing the pool with those queues, no active workers, and
`nextThreadId = 0`. -/
theorem c8_constructor (m : Nat) (qso : Option (List (ThreadQueue I V))) :
    (ThreadPool.create m qso
        = Except.error "ThreadPool requires at least one ThreadQueue"
      ↔ qso = none ∨ qso = some [])
    ∧ ∀ qs, qso = some qs → qs ≠ [] →
        ThreadPool.create m qso = Except.ok ⟨m, qs, [], 0⟩ := by
  constructor
  · cases qso with
    | none => simp [ThreadPool.create]
    | some qs =>
        cases qs with
        | nil => simp [ThreadPool.create]
        | cons q rest => simp [ThreadPool.create]
  · intro qs hqs hne
    subst hqs
    have hlen : ¬ qs.length = 0 := fun hl => hne (List.length_eq_zero.mp hl)
    simp [ThreadPool.create, hlen]

theorem c8_witness :
    ThreadPool.create 4 (some [(⟨"q0", []⟩ : ThreadQueue Nat Nat)])
      = Except.ok ⟨4, [⟨"q0", []⟩], [], 0⟩ :=
  (c8_constructor 4 (some [⟨"q0", []⟩])).2 [⟨"q0", []⟩] rfl (by simp)

/-! ### Claim C9 -/

/-- C9: frame property of `start()`: the queue array — hence every
queue's contents, order and `size()` — and the flattened task list are
identical before and after the call; `start()` only reads a snapshot via
`getAllTasks()`. -/
theorem c9_frame (p : ThreadPool I V) :
    (p.start.2).threadQueueArray = p.threadQueueArray
    ∧ (p.start.2).threadQueueArray.map ThreadQueue.getAllTasks
        = p.threadQueueArray.map ThreadQueue.getAllTasks
    ∧ (p.start.2).threadQueueArray.map ThreadQueue.size
        = p.threadQueueArray.map ThreadQueue.size
    ∧ (p.start.2).allTasks = p.allTasks := by
  have hq : (p.start.2).threadQueueArray = p.threadQueueArray := by
    unfold ThreadPool.start
    by_cases h : p.allTasks.length = 0 <;> simp [h]
  refine ⟨hq, by rw [hq], by rw [hq], ?_⟩
  unfold ThreadPool.allTasks
  rw [hq]

/-! ### Claim C10 -/

/-- C10: when a worker's output completes normally, the terminal
`complete` message carries a `values` field holding every value the
worker emitted, in emission order, and the pool-side translation of that
message is a completed result with no value and no error (the `values`
field is ignored). -/
theorem c10_complete_values (f : ThreadFunc I V) (inp : List I) (tid : Nat)
    (vs : List V) (h : f (ObsOutcome.ok inp) tid = ObsOutcome.ok vs) :
    (workerRun f inp tid).getLast? = some (WorkerMsg.complete vs tid)
    ∧ emittedValues (workerRun f inp tid) = vs
    ∧ (workerResults f inp tid).getLast?
        = some ⟨tid, none, none, true⟩ := by
  refine ⟨?_, ?_, ?_⟩
  · unfold workerRun
    rw [h]
    exact List.getLast?_concat _
  · unfold workerRun
    rw [h, emittedValues_next_map]
    simp [emittedValues]
  · rw [workerResults_eq, h]
    exact List.getLast?_concat _

theorem c10_witness :
    (workerRun (fun i _ => i) [5] 0).getLast?
        = some (WorkerMsg.complete [5] 0)
    ∧ emittedValues (workerRun (fun i _ => i) [5] 0) = [5]
    ∧ (workerResults (fun (i : ObsOutcome Nat) (_ : Nat) => i) [5] 0).getLast?
        = some ⟨0, none, none, true⟩ :=
  c10_complete_values (fun i _ => i) [5] 0 [5] rfl

/-! ### Claim C3 -/

/-- A concrete computation used to exhibit actual boundary messages. -/
def c3Func : ThreadFunc Nat Nat := fun _ _ => ObsOutcome.ok [3]

/-- C3 counterexample: worker.js's actual messages do not match the
claimed schema — the worker-identifier field is `threadId`, not
`workerId`, and `complete` carries an extra `values` field (`error`
carries an extra `stack` field).  The very first message of a concrete
run already fails the schema check. -/
theorem c3_counterexample :
    ((workerRun c3Func [] 0).all (fun m => matchesSpecSchema m.toFields)
        = false)
    ∧ (WorkerMsg.complete [3] 0 ∈ workerRun c3Func [] 0
        ∧ "values" ∈ (WorkerMsg.complete ([3] : List Nat) 0).toFields.map Prod.fst
        ∧ "workerId" ∉ (WorkerMsg.complete ([3] : List Nat) 0).toFields.map Prod.fst) := by
  refine ⟨rfl, ?_, ?_, ?_⟩ <;> decide

/-- C3 amended: every message worker.js posts across the boundary has one
of the three exact field lists `{type, value, threadId}` (next),
`{type, error, stack, threadId}` (error), `{type, values, threadId}`
(complete); the integer worker-identifier field is named `threadId`, and
no `workerId` field exists. -/
theorem c3_schema_amended (f : ThreadFunc I V) (inp : List I) (tid : Nat)
    (m : WorkerMsg V) (hm : m ∈ workerRun f inp tid) :
    (m.toFields.map Prod.fst = ["type", "value", "threadId"]
      ∨ m.toFields.map Prod.fst = ["type", "error", "stack", "threadId"]
      ∨ m.toFields.map Prod.fst = ["type", "values", "threadId"])
    ∧ ("threadId", JVal.jnum tid) ∈ m.toFields
    ∧ "workerId" ∉ m.toFields.map Prod.fst := by
  unfold workerRun at hm
  cases hf : f (ObsOutcome.ok inp) tid with
  | ok vs =>
      rw [hf] at hm
      rcases List.mem_append.mp hm with h | h
      · obtain ⟨v, -, rfl⟩ := List.mem_map.mp h
        refine ⟨Or.inl rfl, ?_, ?_⟩ <;> simp [WorkerMsg.toFields]
      · have hm' : m = WorkerMsg.complete vs tid := by simpa using h
        subst hm'
        refine ⟨Or.inr (Or.inr rfl), ?_, ?_⟩ <;> simp [WorkerMsg.toFields]
  | err vs e =>
      rw [hf] at hm
      rcases List.mem_append.mp hm with h | h
      · obtain ⟨v, -, rfl⟩ := List.mem_map.mp h
        refine ⟨Or.inl rfl, ?_, ?_⟩ <;> simp [WorkerMsg.toFields]
      · have hm' : m = WorkerMsg.error e "" tid := by simpa using h
        subst hm'
        refine ⟨Or.inr (Or.inl rfl), ?_, ?_⟩ <;> simp [WorkerMsg.toFields]

theorem c3_witness :
    ("threadId", JVal.jnum 0) ∈ (WorkerMsg.next 3 0 : WorkerMsg Nat).toFields :=
  (c3_schema_amended c3Func [] 0 (WorkerMsg.next 3 0) (by decide)).2.1

/-! ### Claim C4 -/

/-- Task used in the C4 counterexample. -/
def c4Task : AbstractThreadTask Nat Nat :=
  ⟨fun i _ => i, ObsOutcome.ok [1]⟩

/-- Pool used in the C4 counterexample. -/
def c4Pool : ThreadPool Nat Nat :=
  ⟨4, [⟨"q", [c4Task]⟩], [], 0⟩

/-- C4 counterexample: `start()` reads a snapshot of the queues without
consuming them, so calling it twice on a pool holding one task dispatches
that same task to two distinct workers (ids 0 and 1) — the task is
consumed twice over the pool's lifetime, refuting "at most one worker,
exactly once ... including calling start() more than once". -/
theorem c4_counterexample :
    (c4Pool.startAssignments.1
        ++ (c4Pool.startAssignments.2).startAssignments.1)
      = [(0, c4Task), (1, c4Task)]
    ∧ ¬ ((c4Pool.startAssignments.1
        ++ (c4Pool.startAssignments.2).startAssignments.1).length ≤ 1) := by
  refine ⟨rfl, ?_⟩
  have h : (c4Pool.startAssignments.1
      ++ (c4Pool.startAssignments.2).startAssignments.1).length = 2 := rfl
  omega

/-- C4 amended: within a single `start()` call every task occurrence is
dispatched to exactly one worker — the dispatch list is exactly the
flattened task list, each with one fresh, distinct threadId — and the
framework never re-dispatches within that call; but because `start()`
does not consume the queues, a second `start()` dispatches every task
again, under fresh ids disjoint from the first call's. -/
theorem c4_single_dispatch_amended (p : ThreadPool I V) :
    (p.startAssignments.1.map Prod.snd = p.allTasks)
    ∧ (p.startAssignments.1.map Prod.fst).Nodup
    ∧ ((p.startAssignments.2).startAssignments.1.map Prod.snd = p.allTasks)
    ∧ ∀ i ∈ p.startAssignments.1.map Prod.fst,
        ∀ j ∈ (p.startAssignments.2).startAssignments.1.map Prod.fst, i ≠ j := by
  by_cases h : p.allTasks.length = 0
  · have hnil : p.allTasks = [] := List.length_eq_zero.mp h
    simp [ThreadPool.startAssignments, h, hnil]
  · have h2 : (p.startAssignments.2).allTasks = p.allTasks := by
      unfold ThreadPool.startAssignments
      rw [if_neg h]
      unfold ThreadPool.allTasks
      rfl
    have hs1 : p.startAssignments.1 = assignIds p.nextThreadId p.allTasks := by
      unfold ThreadPool.startAssignments
      rw [if_neg h]
    have hs2 : (p.startAssignments.2).startAssignments.1
        = assignIds (p.nextThreadId + p.allTasks.length) p.allTasks := by
      unfold ThreadPool.startAssignments
      rw [if_neg h]
      simp only
      rw [if_neg (by rw [show ({ p with nextThreadId := p.nextThreadId + p.allTasks.length } :
            ThreadPool I V).allTasks = p.allTasks from rfl]; exact h)]
      rfl
    refine ⟨?_, ?_, ?_, ?_⟩
    · rw [hs1, assignIds_map_snd]
    · rw [hs1, assignIds_map_fst]
      exact List.nodup_range' _ _
    · rw [hs2, assignIds_map_snd]
    · intro i hi j hj
      rw [hs1, assignIds_map_fst] at hi
      rw [hs2, assignIds_map_fst] at hj
      have hi' := List.mem_range'_1.mp hi
      have hj' := List.mem_range'_1.mp hj
      omega

theorem c4_witness :
    c4Pool.startAssignments.1.map Prod.snd = c4Pool.allTasks ∧ (0 : Nat) ≠ 1 :=
  ⟨(c4_single_dispatch_amended c4Pool).1,
   (c4_single_dispatch_amended c4Pool).2.2.2 0 (by decide) 1 (by decide)⟩

/-! ### Claim C5 -/

/-- Task whose input observable errors, used in the C5 counterexample. -/
def c5Task : AbstractThreadTask Nat Nat :=
  ⟨fun _ _ => ObsOutcome.ok [], ObsOutcome.err [] "boom"⟩

/-- Pool used in the C5 counterexample. -/
def c5Pool : ThreadPool Nat Nat :=
  ⟨4, [⟨"q", [c5Task]⟩], [], 0⟩

/-- C5 counterexample: a failure while draining a task's input is passed
to `subscriber.error` and so reaches the merged stream as a fatal stream
error that terminates the subscription, with no data item carrying the
error description — refuting "never propagated as a fatal stream error". -/
theorem c5_counterexample :
    c5Pool.start.1 = some (ObsOutcome.err [] "boom")
    ∧ ¬ ∃ rs, c5Pool.start.1 = some (ObsOutcome.ok rs)
        ∧ ∃ r ∈ rs, r.error = some "boom" := by
  refine ⟨rfl, ?_⟩
  rintro ⟨rs, h, -⟩
  have h0 : c5Pool.start.1 = some (ObsOutcome.err [] "boom") := rfl
  rw [h0] at h
  simp at h

/-- C5 amended: once a task's input has completed, every failure of the
computation is delivered as data — the worker observable completes
normally and an execution error shows up as its final item, an error
result with `completed = true` for that threadId — but a failure while
draining the task's input is propagated as a fatal stream error
(`subscriber.error`), not as data. -/
theorem c5_error_policy_amended (t : AbstractThreadTask I V) (tid : Nat) :
    (∀ inputData, t.input = ObsOutcome.ok inputData →
        (∃ rs, createWorkerObservable t tid = ObsOutcome.ok rs)
        ∧ ∀ vs e, t.threadFunc (ObsOutcome.ok inputData) tid = ObsOutcome.err vs e →
            ∃ rs, createWorkerObservable t tid = ObsOutcome.ok rs
              ∧ rs.getLast? = some ⟨tid, none, some e, true⟩)
    ∧ ∀ vs e, t.input = ObsOutcome.err vs e →
        createWorkerObservable t tid = ObsOutcome.err [] e := by
  constructor
  · intro inputData hin
    have hobs : createWorkerObservable t tid
        = ObsOutcome.ok (workerResults t.threadFunc inputData tid) := by
      simp [createWorkerObservable, hin, workerResults]
    refine ⟨⟨_, hobs⟩, ?_⟩
    intro vs e hrun
    refine ⟨workerResults t.threadFunc inputData tid, hobs, ?_⟩
    rw [workerResults_eq, hrun]
    exact List.getLast?_concat _
  · intro vs e hin
    simp [createWorkerObservable, hin]

theorem c5_witness :
    createWorkerObservable c5Task 0 = ObsOutcome.err [] "boom" :=
  (c5_error_policy_amended c5Task 0).2 [] "boom" rfl

/-! ### Claim C6 -/

/-- Runtime state used in the C6 counterexample: one live worker with
threadId 0, its subscriber still open. -/
def c6Run : PoolRun Nat Nat :=
  ⟨⟨4, [⟨"q", []⟩], [0], 0⟩, []⟩

/-- C6 counterexample: immediately after `terminateAll()` the active
count is 0, yet an in-flight `message` event from the terminated worker
is still delivered to the subscriber (the message handler never consults
the active-worker map), refuting "no further result messages ... are
ever delivered". -/
theorem c6_counterexample :
    ((c6Run.step PoolEvent.terminateAll).1.pool.getActiveWorkerCount = 0)
    ∧ ((c6Run.step PoolEvent.terminateAll).1.step
          (PoolEvent.message 0 (WorkerMsg.next 7 0))).2
        = [⟨0, some 7, none, false⟩]
    ∧ ((c6Run.step PoolEvent.terminateAll).1.step
          (PoolEvent.message 0 (WorkerMsg.next 7 0))).2 ≠ [] := by
  refine ⟨rfl, rfl, ?_⟩
  decide

/-- C6 amended: `terminateAll()` clears the active-worker map — so
`getActiveWorkerCount()` is 0 immediately afterwards — delivers nothing
itself, and a subsequent `exit` event from a terminated worker is
suppressed (the exit handler checks the active-worker map before
synthesizing an error result); but an in-flight `message` event from a
terminated worker whose subscriber is still open is still delivered. -/
theorem c6_terminate_amended (s : PoolRun I V) :
    ((s.step PoolEvent.terminateAll).1.pool.getActiveWorkerCount = 0)
    ∧ ((s.step PoolEvent.terminateAll).2 = [])
    ∧ (∀ tid code,
        ((s.step PoolEvent.terminateAll).1.step (PoolEvent.workerExit tid code)).2 = [])
    ∧ (∀ tid v mtid, tid ∉ s.closedSubscribers →
        ((s.step PoolEvent.terminateAll).1.step
            (PoolEvent.message tid (WorkerMsg.next v mtid))).2
          = [⟨mtid, some v, none, false⟩]) := by
  refine ⟨rfl, rfl, ?_, ?_⟩
  · intro tid code
    simp [PoolRun.step]
  · intro tid v mtid htid
    simp [PoolRun.step, PoolRun.deliver, htid]

theorem c6_witness :
    ((c6Run.step PoolEvent.terminateAll).1.step
        (PoolEvent.message 0 (WorkerMsg.next 7 0))).2
      = [⟨0, some 7, none, false⟩] :=
  (c6_terminate_amended c6Run).2.2.2 0 7 0 (by decide)

/-! ### Claim C1 -/

theorem create_ok (m : Nat) (qs : List (ThreadQueue I V)) (p : ThreadPool I V)
    (hp : ThreadPool.create m (some qs) = Except.ok p) :
    p = ⟨m, qs, [], 0⟩ := by
  simp only [ThreadPool.create] at hp
  by_cases h : qs.length = 0
  · rw [if_pos h] at hp; cases hp
  · rw [if_neg h] at hp
    injection hp with h'
    exact h'.symm

theorem startAssignments_fst (p : ThreadPool I V)
    (h : ¬ p.allTasks.length = 0) :
    p.startAssignments.1 = assignIds p.nextThreadId p.allTasks := by
  unfold ThreadPool.startAssignments
  rw [if_neg h]

theorem start_snd_eq (p : ThreadPool I V) :
    p.start.2 = p.startAssignments.2 := by
  unfold ThreadPool.start ThreadPool.startAssignments
  by_cases h : p.allTasks.length = 0 <;> simp [h]

theorem startAssignments_snd (p : ThreadPool I V)
    (h : ¬ p.allTasks.length = 0) :
    p.startAssignments.2
      = { p with nextThreadId := p.nextThreadId + p.allTasks.length } := by
  unfold ThreadPool.startAssignments
  rw [if_neg h]

theorem allTasks_update (p : ThreadPool I V) (n : Nat) :
    ({ p with nextThreadId := n } : ThreadPool I V).allTasks = p.allTasks :=
  rfl

/-- C1 amended: for a freshly constructed pool whose queues hold N tasks,
all of whose input sequences complete normally, the worker-ids assigned
by `start()` are exactly `0..N-1`, sequentially in queue-flattening
order; the merged stream completes with exactly one terminal result per
worker-id `0..N-1` and none for any other id; and ids are never reused —
any later `start()` on the same pool instance assigns ids ≥ N.  (The
all-inputs-complete hypothesis is forced: a task whose input errors
fails the merged stream before a terminal result is delivered.) -/
theorem c1_terminal_events_amended (m : Nat) (qs : List (ThreadQueue I V))
    (p : ThreadPool I V) (hp : ThreadPool.create m (some qs) = Except.ok p)
    (hne : p.allTasks ≠ [])
    (hok : ∀ t ∈ p.allTasks, ∃ vs, t.input = ObsOutcome.ok vs) :
    (p.startAssignments.1.map Prod.fst = List.range p.allTasks.length)
    ∧ (∃ items, p.start.1 = some (ObsOutcome.ok items)
        ∧ (∀ tid, tid < p.allTasks.length → terminalCount items tid = 1)
        ∧ (∀ tid, p.allTasks.length ≤ tid → terminalCount items tid = 0))
    ∧ (∀ i ∈ (p.start.2).startAssignments.1.map Prod.fst,
        p.allTasks.length ≤ i) := by
  have hp0 : p.nextThreadId = 0 := by rw [create_ok m qs p hp]
  have hlen : ¬ p.allTasks.length = 0 := fun h => hne (List.length_eq_zero.mp h)
  refine ⟨?_, ?_, ?_⟩
  · rw [startAssignments_fst p hlen, assignIds_map_fst, hp0,
        List.range_eq_range']
  · obtain ⟨items, hmerge, hcount⟩ :=
      mergeAll_assignIds_terminal p.allTasks 0 hok
    refine ⟨items, ?_, ?_, ?_⟩
    · unfold ThreadPool.start
      rw [if_neg hlen]
      simp only
      rw [hp0, hmerge]
    · intro tid htid
      rw [hcount tid, if_pos ⟨Nat.zero_le _, by omega⟩]
    · intro tid htid
      rw [hcount tid, if_neg (by omega)]
  · intro i hi
    rw [start_snd_eq, startAssignments_snd p hlen] at hi
    have hfst : ({ p with nextThreadId := p.nextThreadId + p.allTasks.length } :
        ThreadPool I V).startAssignments.1
        = assignIds (p.nextThreadId + p.allTasks.length) p.allTasks := by
      rw [startAssignments_fst _ (by rw [allTasks_update]; exact hlen)]
      rfl
    rw [hfst, assignIds_map_fst, allTasks_update] at hi
    have hi' := List.mem_range'_1.mp hi
    omega

/-- Task with an erroring input, used in the C1 counterexample. -/
def c1BadTask : AbstractThreadTask Nat Nat :=
  ⟨fun _ _ => ObsOutcome.ok [], ObsOutcome.err [] "c1boom"⟩

/-- Healthy task used alongside `c1BadTask` in the C1 counterexample. -/
def c1GoodTask : AbstractThreadTask Nat Nat :=
  ⟨fun i _ => i, ObsOutcome.ok [9]⟩

/-- Pool used in the C1 counterexample: two tasks, the first with an
erroring input. -/
def c1CexPool : ThreadPool Nat Nat :=
  ⟨4, [⟨"q", [c1BadTask, c1GoodTask]⟩], [], 0⟩

/-- C1 counterexample: with N = 2 tasks whose first input errors, the
merged stream fails with a stream error before delivering any result, so
neither worker-id 0 nor worker-id 1 receives its one terminal event —
the claim is false without the all-inputs-complete hypothesis. -/
theorem c1_counterexample :
    c1CexPool.allTasks.length = 2
    ∧ c1CexPool.start.1 = some (ObsOutcome.err [] "c1boom")
    ∧ ¬ ∃ items, c1CexPool.start.1 = some (ObsOutcome.ok items)
        ∧ ∀ tid, tid < 2 → terminalCount items tid = 1 := by
  refine ⟨rfl, rfl, ?_⟩
  rintro ⟨items, h, -⟩
  have h0 : c1CexPool.start.1 = some (ObsOutcome.err [] "c1boom") := rfl
  rw [h0] at h
  simp at h

theorem c1_witness :
    ∃ items, c1Pool.start.1 = some (ObsOutcome.ok items)
      ∧ terminalCount items 0 = 1 := by
  obtain ⟨-, ⟨items, h1, h2, -⟩, -⟩ :=
    c1_terminal_events_amended 4 [⟨"q", [c1Task]⟩] c1Pool rfl
      (by rw [show c1Pool.allTasks = [c1Task] from rfl]; simp)
      (by rw [show c1Pool.allTasks = [c1Task] from rfl]
          intro t ht
          rw [List.mem_singleton] at ht
          subst ht
          exact ⟨[5], rfl⟩)
  refine ⟨items, h1, h2 0 ?_⟩
  rw [show c1Pool.allTasks = [c1Task] from rfl]
  simp

end RxThreadPool
